import Mathlib

/-!
A shallow embedding of the kepctl release subsystem (pkg/kepctl release code):
the release layout initializer (InitRelease), the stage placement writer
(proposeKEP) and the manifest aggregator (GenerateRelease), together with the
small data model they share. File-system state is explicit: a directory is a
list of (file name, file content) pairs, and the outcome of each write call
whose error the source inspects or discards is an explicit boolean input.
The external YAML codec is modelled at its interface boundary: a document is a
record of optionally-present string fields, marshalling emits every field
(subject to the omitempty tags of the source structs), and unmarshalling into
an existing struct overwrites only the fields present in the document, exactly
as the JSON-backed codec of the source behaves.
-/

namespace Kepctl

/-- Proposal metadata record, mirroring the source struct releaseContent with
field tags kep,omitempty / link / sig / stage / issue. -/
structure releaseContent where
  Number : String
  Link   : String
  SIG    : String
  Stage  : String
  Issue  : String
deriving DecidableEq

/-- The zero value of releaseContent, as introduced by the declaration
var content releaseContent in GenerateRelease. -/
def zeroContent : releaseContent :=
  { Number := "", Link := "", SIG := "", Stage := "", Issue := "" }

/-- A structured document for one record as the external YAML codec sees it:
each key of releaseContent is either present with a string value or absent. -/
structure YamlDoc where
  kep   : Option String
  link  : Option String
  sig   : Option String
  stage : Option String
  issue : Option String
deriving DecidableEq

/-- yaml.Marshal of a releaseContent: every field is emitted except kep,
which carries omitempty and is dropped when Number is the empty string. -/
def marshalContent (r : releaseContent) : YamlDoc :=
  { kep := if r.Number = "" then none else some r.Number
  , link := some r.Link, sig := some r.SIG
  , stage := some r.Stage, issue := some r.Issue }

/-- yaml.Unmarshal(b, &content): the JSON-backed decoding into an existing
struct overwrites only the fields present in the document and leaves absent
fields at their previous values. -/
def unmarshalInto (prev : releaseContent) (d : YamlDoc) : releaseContent :=
  { Number := d.kep.getD prev.Number
  , Link := d.link.getD prev.Link
  , SIG := d.sig.getD prev.SIG
  , Stage := d.stage.getD prev.Stage
  , Issue := d.issue.getD prev.Issue }

/-- Content of one file as the aggregator sees it: either a structured
document, or bytes on which decoding fails. -/
inductive FileData where
  | yamlDoc (d : YamlDoc)
  | malformed
deriving DecidableEq

/-- strings.HasSuffix, on the character lists of the two strings. -/
def hasSuffix (s suf : String) : Bool := suf.data.isSuffixOf s.data

/-- Characters of a name up to (excluding) the first dot; the whole name when
it has no dot. -/
def takeUntilDot : List Char → List Char
  | [] => []
  | c :: cs => if c = '.' then [] else c :: takeUntilDot cs

/-- strings.Split(name, ".")[0], as used by GenerateRelease to re-attach the
proposal identifier from a file name. -/
def splitFirstDot (name : String) : String := String.mk (takeUntilDot name.data)

/-- String comparison as used by sort.Strings: ascending lexicographic order.
Byte order on UTF-8 data agrees with codepoint order, so the Lean order on
String is the same relation. -/
def strLe (a b : String) : Prop := a ≤ b

instance : DecidableRel strLe := fun a b => inferInstanceAs (Decidable (a ≤ b))

/-- sort.Strings: sorts a list of strings ascending. Insertion sort is used
as the sorting model; on a total order it returns the same list as any
correct sort. -/
def sortStrings (l : List String) : List String := l.insertionSort strLe

/-- The link to a KEP document, from generateKEPLink. -/
def generateKEPLink (kep : String) : String :=
  "https://github.com/kubernetes/enhancements/tree/master/keps/" ++ kep

/-- The link to the tracking issue of a KEP, from generateIssueLink. -/
def generateIssueLink (number : String) : String :=
  "https://github.com/kubernetes/enhancements/issues/" ++ number

/-- Ownership record, mirroring the source struct ownersFile with field tags
approvers,omitempty / reviewers,omitempty. -/
structure ownersFile where
  Approvers : List String
  Reviewers : List String
deriving DecidableEq

/-- The approver list built by InitRelease: each enhancement-team member is
rendered with the Enhancement Team role label, each release lead with the
Release Lead role label, then the whole list is sorted with sort.Strings. -/
def buildApprovers (team leads : List String) : List String :=
  sortStrings
    (team.map (fun person => person ++ " // Enhancement Team")
      ++ leads.map (fun person => person ++ " // Release Lead"))

/-- The ownership record built by InitRelease: the sorted approver list and
the fixed reviewer list. -/
def buildOwners (team leads : List String) : ownersFile :=
  { Reviewers := ["release-team"], Approvers := buildApprovers team leads }

/-- Rendering of a string list as a block of YAML sequence items. -/
def renderStrList (l : List String) : String :=
  String.join (l.map (fun s => "- " ++ s ++ "\n"))

/-- Deterministic rendering of an ownersFile by the external YAML codec:
keys in alphabetical order, omitempty dropping empty lists. The exact bytes
stand in for the yaml.Marshal output at the interface boundary; what the
development relies on is that equal records yield identical bytes. -/
def marshalOwners (o : ownersFile) : String :=
  (if o.Approvers = [] then "" else "approvers:\n" ++ renderStrList o.Approvers)
    ++ (if o.Reviewers = [] then "" else "reviewers:\n" ++ renderStrList o.Reviewers)

/-- File-system state under one release root as InitRelease manipulates it:
the stage subdirectories that exist, and the OWNERS files successfully
written (stage directory name paired with record). The enclosing MkdirAll on
the release root tolerates an existing directory and is modelled as
succeeding. -/
structure InitFS where
  subdirs : List String
  ownersFiles : List (String × ownersFile)
deriving DecidableEq

/-- os.Mkdir of a stage subdirectory: fails when the directory already
exists, otherwise records it. -/
def mkdirStage (fs : InitFS) (name : String) : Except String InitFS :=
  if name ∈ fs.subdirs then .error ("unable to create " ++ name ++ " directory")
  else .ok { fs with subdirs := fs.subdirs ++ [name] }

/-- ownersFile.save into a stage directory. writeOk is the outcome of the
underlying WriteFile call; on failure an error is returned and nothing is
written. yaml.Marshal of this struct cannot fail, so that branch of the
source (which would even return nil on a marshal error) is unreachable. -/
def saveOwners (fs : InitFS) (dir : String) (o : ownersFile) (writeOk : Bool) :
    InitFS × Option String :=
  if writeOk then
    ({ fs with ownersFiles := fs.ownersFiles ++ [(dir, o)] }, none)
  else (fs, some "unable to write OWNERS file")

/-- Options of InitRelease after Validate: the two role lists. -/
structure InitReleaseOpts where
  EnhancementTeam : List String
  ReleaseLeads : List String
deriving DecidableEq

/-- InitRelease over one release root: builds the ownership record, then for
each of the five stages in source order creates the directory (aborting on
failure with the state reached so far) and saves the OWNERS file, discarding
the save result exactly as the source does. saveOk gives the outcome of each
OWNERS write, keyed by stage directory name. -/
def InitRelease (opts : InitReleaseOpts) (fs : InitFS) (saveOk : String → Bool) :
    InitFS × Except String Unit :=
  let owners := buildOwners opts.EnhancementTeam opts.ReleaseLeads
  match mkdirStage fs "accepted" with
  | .error e => (fs, .error e)
  | .ok fsA =>
    let fsA2 := (saveOwners fsA "accepted" owners (saveOk "accepted")).1
    match mkdirStage fsA2 "exception" with
    | .error e => (fsA2, .error e)
    | .ok fsB =>
      let fsB2 := (saveOwners fsB "exception" owners (saveOk "exception")).1
      match mkdirStage fsB2 "proposed" with
      | .error e => (fsB2, .error e)
      | .ok fsC =>
        let fsC2 := (saveOwners fsC "proposed" owners (saveOk "proposed")).1
        match mkdirStage fsC2 "at-risk" with
        | .error e => (fsC2, .error e)
        | .ok fsD =>
          let fsD2 := (saveOwners fsD "at-risk" owners (saveOk "at-risk")).1
          match mkdirStage fsD2 "removed" with
          | .error e => (fsD2, .error e)
          | .ok fsE =>
            ((saveOwners fsE "removed" owners (saveOk "removed")).1, .ok ())

/-- Options of proposeKEP after Validate: the KEP identifier pieces carried
by CommonArgs and the flags of the release subcommand. -/
structure ReleaseOpts where
  Number : String
  KEP : String
  SIG : String
  Stage : String
deriving DecidableEq

/-- File-system state that proposeKEP touches: whether the release root
exists, and the files of its proposed subdirectory. -/
structure ProposeFS where
  releaseExists : Bool
  proposedFiles : List (String × FileData)
deriving DecidableEq

/-- ioutil.WriteFile into a directory listing: overwrites a file of the same
name unconditionally, otherwise creates it. -/
def writeEntry (files : List (String × FileData)) (name : String) (d : FileData) :
    List (String × FileData) :=
  files.filter (fun e => e.1 != name) ++ [(name, d)]

/-- proposeKEP: checks that the release root exists, builds the proposal
record from the options (the Number field stays at its zero value), and
writes its marshalled form to proposed/Number.yaml. writeSucceeds is the
outcome of the single WriteFile call; the source discards that error, so the
returned value does not depend on it. yaml.Marshal of this struct cannot
fail, so that error branch is unreachable. -/
def proposeKEP (opts : ReleaseOpts) (fs : ProposeFS) (writeSucceeds : Bool) :
    ProposeFS × Except String Unit :=
  if fs.releaseExists = false then
    (fs, .error "unable to propose KEP for release: release directory does not exist")
  else
    let proposal : releaseContent :=
      { Number := "", SIG := opts.SIG, Stage := opts.Stage
      , Issue := generateIssueLink opts.Number, Link := generateKEPLink opts.KEP }
    let fileName := opts.Number ++ ".yaml"
    let b := marshalContent proposal
    if writeSucceeds then
      ({ fs with proposedFiles := writeEntry fs.proposedFiles fileName (.yamlDoc b) },
        .ok ())
    else
      (fs, .ok ())

/-- Aggregate manifest, mirroring the source struct releaseManifest. Go
slices distinguish nil from empty and a nil slice is serialized as null, so
each list is an Option; the zero value of the struct has every field nil. -/
structure releaseManifest where
  Proposed : Option (List releaseContent)
  Accepted : Option (List releaseContent)
  AtRisk : Option (List releaseContent)
  Removed : Option (List releaseContent)
deriving DecidableEq

/-- ioutil.ReadDir: returns the directory entries sorted by file name. -/
def readDir (l : List (String × FileData)) : List (String × FileData) :=
  l.insertionSort (fun a b => strLe a.1 b.1)

/-- One scan loop of GenerateRelease over a stage directory listing: skips
entries without the .yaml suffix, decodes each remaining file into the single
shared content variable (threaded through as the first component), sets its
Number from the file name, and appends a copy to the collected list. Returns
none as soon as one decode fails. -/
def scanStage : releaseContent → List (String × FileData) →
    Option (releaseContent × List releaseContent)
  | c, [] => some (c, [])
  | c, (name, data) :: rest =>
    if hasSuffix name ".yaml" then
      match data with
      | .malformed => none
      | .yamlDoc d =>
        let c2 := { unmarshalInto c d with Number := splitFirstDot name }
        match scanStage c2 rest with
        | none => none
        | some (cLast, out) => some (cLast, c2 :: out)
    else scanStage c rest

/-- File-system state under one release root as GenerateRelease sees it: for
each stage subdirectory its listing when it is listable, plus the manifest
file when present. -/
structure ReleaseFS where
  releaseExists : Bool
  accepted : Option (List (String × FileData))
  atRisk : Option (List (String × FileData))
  removed : Option (List (String × FileData))
  proposed : Option (List (String × FileData))
  exceptionDir : Option (List (String × FileData))
  manifestFile : Option String
deriving DecidableEq

/-- The aggregation phase of GenerateRelease, up to serialization: after the
existence probe on the release root it scans accepted, at-risk and removed in
that order, threading the one shared content variable through all three
loops. The proposed and exception directories are never read; the manifest
struct keeps its nil Proposed field, and the dangling get-exceptions comment
in the source marks the unwritten part. Each loop aborts the whole run on an
unlistable directory or on the first decode failure. -/
def aggregateManifest (fs : ReleaseFS) : Except String releaseManifest :=
  if fs.releaseExists = false then .error "release directory does not exist"
  else
    match fs.accepted with
    | none => .error "unable to read accepted metadata"
    | some la =>
      match scanStage zeroContent (readDir la) with
      | none => .error "error loading accepted KEP"
      | some (c1, acceptedKeps) =>
        match fs.atRisk with
        | none => .error "unable to read at-risk metadata"
        | some lr =>
          match scanStage c1 (readDir lr) with
          | none => .error "error loading at-risk KEP"
          | some (c2, atrisk) =>
            match fs.removed with
            | none => .error "unable to read removed metadata"
            | some lm =>
              match scanStage c2 (readDir lm) with
              | none => .error "error loading removed KEP"
              | some (_, removedKeps) =>
                .ok { Proposed := none, Accepted := some acceptedKeps
                    , AtRisk := some atrisk, Removed := some removedKeps }

/-- Rendering of one manifest entry by the external YAML codec: keys in
alphabetical order, kep dropped when empty per its omitempty tag. -/
def renderEntry (r : releaseContent) : String :=
  "- issue: " ++ r.Issue ++ "\n"
    ++ (if r.Number = "" then "" else "  kep: " ++ r.Number ++ "\n")
    ++ "  link: " ++ r.Link ++ "\n"
    ++ "  sig: " ++ r.SIG ++ "\n"
    ++ "  stage: " ++ r.Stage ++ "\n"

/-- Rendering of one stage list of the manifest: a nil slice serializes as
null, an empty slice as an empty sequence, a nonempty one as its items. -/
def renderContentList : Option (List releaseContent) → String
  | none => " null\n"
  | some [] => " []\n"
  | some (r :: rest) => "\n" ++ String.join ((r :: rest).map renderEntry)

/-- Deterministic rendering of the manifest document by the external YAML
codec, keys in alphabetical order, standing in for yaml.Marshal at the
interface boundary. -/
def marshalManifest (m : releaseManifest) : String :=
  "accepted:" ++ renderContentList m.Accepted
    ++ "at-risk:" ++ renderContentList m.AtRisk
    ++ "proposed:" ++ renderContentList m.Proposed
    ++ "removed:" ++ renderContentList m.Removed

/-- The two-line provenance header and following blank line that
GenerateRelease writes in front of the serialized manifest. -/
def manifestHeader : String :=
  "### THIS FILE IS AUTOGENERATED ###\n# To regenerate run kepctl release generate\n\n"

/-- GenerateRelease: runs the aggregation and, on success, writes the header
plus serialized document to the manifest file at the release root. Any
aggregation error leaves the file system untouched. The final WriteFile is
modelled as succeeding; its failure path only wraps the I/O error. -/
def GenerateRelease (fs : ReleaseFS) : ReleaseFS × Except String Unit :=
  match aggregateManifest fs with
  | .error e => (fs, .error e)
  | .ok m =>
    ({ fs with manifestFile := some (manifestHeader ++ marshalManifest m) }, .ok ())

/-- A stage directory listing contains a metadata file that fails to decode:
some entry bears the .yaml suffix and holds malformed content. -/
def hasMalformedYaml (l : List (String × FileData)) : Prop :=
  ∃ e ∈ l, hasSuffix e.1 ".yaml" = true ∧ e.2 = FileData.malformed

/-- A stage directory listing holds no proposal metadata files: no entry
bears the .yaml suffix. -/
def noYamlEntries (l : List (String × FileData)) : Prop :=
  ∀ e ∈ l, hasSuffix e.1 ".yaml" = false

/-- The options of the spec example scenario: KEP sig-api/123-foo proposed
for a release. -/
def opts123 : ReleaseOpts :=
  { Number := "123-foo", KEP := "sig-api/123-foo", SIG := "sig-api"
  , Stage := "proposed" }

/-- Release state of the example scenario right after proposeKEP placed
123-foo.yaml in the proposed directory of a freshly scanned release. -/
def rel123 : ReleaseFS :=
  { releaseExists := true, accepted := some [], atRisk := some []
  , removed := some []
  , proposed := some (proposeKEP opts123 ⟨true, []⟩ true).1.proposedFiles
  , exceptionDir := some [], manifestFile := none }

/-- A release whose five stage directories exist and are all empty. -/
def emptyRel : ReleaseFS :=
  { releaseExists := true, accepted := some [], atRisk := some []
  , removed := some [], proposed := some [], exceptionDir := some []
  , manifestFile := none }

/-- A release with one well-formed accepted record, used to exercise a full
generate run concretely. -/
def oneAcceptedRel : ReleaseFS :=
  { releaseExists := true
  , accepted := some [("100.yaml", FileData.yamlDoc
      ⟨none, some "linkA", some "sig-a", some "alpha", some "issueA"⟩)]
  , atRisk := some [], removed := some [], proposed := some []
  , exceptionDir := some [], manifestFile := none }

/-- A release whose accepted directory holds one record giving every field
and whose at-risk directory holds one record giving none, exhibiting the
shared decode variable of GenerateRelease concretely. -/
def carryoverRel : ReleaseFS :=
  { releaseExists := true
  , accepted := some [("100.yaml", FileData.yamlDoc
      ⟨none, some "linkA", some "sig-a", some "alpha", some "issueA"⟩)]
  , atRisk := some [("200.yaml", FileData.yamlDoc ⟨none, none, none, none, none⟩)]
  , removed := some [], proposed := some [], exceptionDir := some []
  , manifestFile := none }

instance : DecidablePred hasMalformedYaml := fun l =>
  inferInstanceAs (Decidable
    (∃ e ∈ l, hasSuffix e.1 ".yaml" = true ∧ e.2 = FileData.malformed))

instance : DecidablePred noYamlEntries := fun l =>
  inferInstanceAs (Decidable (∀ e ∈ l, hasSuffix e.1 ".yaml" = false))

instance : IsTotal String strLe := inferInstanceAs (IsTotal String (· ≤ ·))

instance : IsTrans String strLe := inferInstanceAs (IsTrans String (· ≤ ·))

instance : IsAntisymm String strLe := inferInstanceAs (IsAntisymm String (· ≤ ·))

/-- Two lists of strings that are permutations of one another sort to the
same list: the order is total, transitive and antisymmetric. -/
theorem sortStrings_perm_eq {l1 l2 : List String} (h : l1.Perm l2) :
    sortStrings l1 = sortStrings l2 :=
  List.eq_of_perm_of_sorted
    (((List.perm_insertionSort strLe l1).trans h).trans
      (List.perm_insertionSort strLe l2).symm)
    (List.sorted_insertionSort strLe l1) (List.sorted_insertionSort strLe l2)

/-- Cutting a dot-free name at the first dot of name ++ dot-tail returns the
name. -/
theorem takeUntilDot_append_dot (cs rest : List Char) (h : '.' ∉ cs) :
    takeUntilDot (cs ++ '.' :: rest) = cs := by
  induction cs with
  | nil => simp [takeUntilDot]
  | cons a t ih =>
    have ha : ¬ (a = '.') := fun he => h (he ▸ List.mem_cons_self a t)
    have ht : '.' ∉ t := fun hm => h (List.mem_cons_of_mem a hm)
    simp only [List.cons_append, takeUntilDot, if_neg ha, List.append_eq, ih ht]

/-- The identifier extraction of GenerateRelease undoes the file naming of
proposeKEP whenever the identifier itself has no dot. -/
theorem splitFirstDot_append_yaml (s : String) (h : '.' ∉ s.data) :
    splitFirstDot (s ++ ".yaml") = s := by
  unfold splitFirstDot
  rw [String.data_append]
  have hy : (".yaml" : String).data = '.' :: ['y', 'a', 'm', 'l'] := rfl
  rw [hy, takeUntilDot_append_dot s.data _ h]

/-- Looking up the file just written by writeEntry yields its content. -/
theorem lookup_writeEntry (files : List (String × FileData)) (name : String)
    (d : FileData) :
    List.lookup name (writeEntry files name d) = some d := by
  unfold writeEntry
  induction files with
  | nil => simp [List.lookup]
  | cons e rest ih =>
    obtain ⟨k, v⟩ := e
    rw [List.filter_cons]
    by_cases h : k = name
    · simpa [h] using ih
    · have hk : (((k, v) : String × FileData).1 != name) = true := by simp [h]
      rw [if_pos hk, List.cons_append, List.lookup_cons]
      have hne : (name == k) = false := by simp [Ne.symm h]
      simp [hne, ih]

/-- Decoding a marshalled record into a fresh zero record reproduces the
record: every field other than kep is always present, and an absent kep
corresponds exactly to an empty Number. -/
theorem unmarshal_marshal (r : releaseContent) :
    unmarshalInto zeroContent (marshalContent r) = r := by
  obtain ⟨n, l, s, st, i⟩ := r
  by_cases h : n = "" <;> simp [unmarshalInto, marshalContent, zeroContent, h]

/-- C6: placeProposal (proposeKEP) followed by decoding the written file
reproduces the supplied SIG, stage, issue link and proposal link; the codec
round-trips every record, absent optional fields normalizing to empty
strings; and the proposal identifier is recovered from the file name alone by
cutting at the extension, the identifier itself being dot-free as delivered
by the external KEP identifier parsing. -/
theorem c6_place_then_decode (opts : ReleaseOpts) (fs : ProposeFS)
    (hex : fs.releaseExists = true) (hdot : '.' ∉ opts.Number.data) :
    (∀ r : releaseContent, unmarshalInto zeroContent (marshalContent r) = r) ∧
    List.lookup (opts.Number ++ ".yaml") (proposeKEP opts fs true).1.proposedFiles
      = some (FileData.yamlDoc (marshalContent
          { Number := "", SIG := opts.SIG, Stage := opts.Stage
          , Issue := generateIssueLink opts.Number
          , Link := generateKEPLink opts.KEP })) ∧
    unmarshalInto zeroContent (marshalContent
        { Number := "", SIG := opts.SIG, Stage := opts.Stage
        , Issue := generateIssueLink opts.Number
        , Link := generateKEPLink opts.KEP })
      = { Number := "", SIG := opts.SIG, Stage := opts.Stage
        , Issue := generateIssueLink opts.Number
        , Link := generateKEPLink opts.KEP } ∧
    splitFirstDot (opts.Number ++ ".yaml") = opts.Number := by
  refine ⟨unmarshal_marshal, ?_, unmarshal_marshal _, splitFirstDot_append_yaml _ hdot⟩
  have hfiles : (proposeKEP opts fs true).1.proposedFiles
      = writeEntry fs.proposedFiles (opts.Number ++ ".yaml")
          (FileData.yamlDoc (marshalContent
            { Number := "", SIG := opts.SIG, Stage := opts.Stage
            , Issue := generateIssueLink opts.Number
            , Link := generateKEPLink opts.KEP })) := by
    simp [proposeKEP, hex]
  rw [hfiles, lookup_writeEntry]

/-- Witness for C6 at the concrete input of the spec example scenario. -/
theorem c6_place_then_decode_witness :
    (⟨true, []⟩ : ProposeFS).releaseExists = true ∧
    '.' ∉ ("123-foo" : String).data ∧
    ((∀ r : releaseContent, unmarshalInto zeroContent (marshalContent r) = r) ∧
      List.lookup ("123-foo" ++ ".yaml")
        (proposeKEP ⟨"123-foo", "sig-api/123-foo", "sig-api", "proposed"⟩
          ⟨true, []⟩ true).1.proposedFiles
        = some (FileData.yamlDoc (marshalContent
            { Number := "", SIG := "sig-api", Stage := "proposed"
            , Issue := generateIssueLink "123-foo"
            , Link := generateKEPLink "sig-api/123-foo" })) ∧
      unmarshalInto zeroContent (marshalContent
          { Number := "", SIG := "sig-api", Stage := "proposed"
          , Issue := generateIssueLink "123-foo"
          , Link := generateKEPLink "sig-api/123-foo" })
        = { Number := "", SIG := "sig-api", Stage := "proposed"
          , Issue := generateIssueLink "123-foo"
          , Link := generateKEPLink "sig-api/123-foo" } ∧
      splitFirstDot ("123-foo" ++ ".yaml") = "123-foo") :=
  ⟨rfl, by decide,
    c6_place_then_decode ⟨"123-foo", "sig-api/123-foo", "sig-api", "proposed"⟩
      ⟨true, []⟩ rfl (by decide)⟩

/-- C7: the built ownership record has reviewer list exactly release-team,
its approver list is the concatenation of the rendered Enhancement Team and
Release Lead entries sorted ascending by the full rendered string, and any
two input orderings with the same elements produce the same record, hence
byte-identical encoded output. -/
theorem c7_buildOwners_deterministic (t1 l1 t2 l2 : List String)
    (ht : t1.Perm t2) (hl : l1.Perm l2) :
    (buildOwners t1 l1).Reviewers = ["release-team"] ∧
    (buildOwners t1 l1).Approvers
      = sortStrings (t1.map (fun person => person ++ " // Enhancement Team")
          ++ l1.map (fun person => person ++ " // Release Lead")) ∧
    buildOwners t1 l1 = buildOwners t2 l2 ∧
    marshalOwners (buildOwners t1 l1) = marshalOwners (buildOwners t2 l2) := by
  have hperm : (t1.map (fun person => person ++ " // Enhancement Team")
      ++ l1.map (fun person => person ++ " // Release Lead")).Perm
      (t2.map (fun person => person ++ " // Enhancement Team")
        ++ l2.map (fun person => person ++ " // Release Lead")) :=
    (ht.map _).append (hl.map _)
  have heq : buildOwners t1 l1 = buildOwners t2 l2 := by
    unfold buildOwners buildApprovers
    rw [sortStrings_perm_eq hperm]
  exact ⟨rfl, rfl, heq, by rw [heq]⟩

/-- Witness for C7 at concrete permuted inputs. -/
theorem c7_buildOwners_deterministic_witness :
    (["bob", "alice"] : List String).Perm ["alice", "bob"] ∧
    (["dana", "carol"] : List String).Perm ["carol", "dana"] ∧
    (buildOwners ["bob", "alice"] ["dana", "carol"]).Reviewers = ["release-team"] ∧
    buildOwners ["bob", "alice"] ["dana", "carol"]
      = buildOwners ["alice", "bob"] ["carol", "dana"] ∧
    marshalOwners (buildOwners ["bob", "alice"] ["dana", "carol"])
      = marshalOwners (buildOwners ["alice", "bob"] ["carol", "dana"]) := by
  have h1 : (["bob", "alice"] : List String).Perm ["alice", "bob"] := by decide
  have h2 : (["dana", "carol"] : List String).Perm ["carol", "dana"] := by decide
  have h := c7_buildOwners_deterministic ["bob", "alice"] ["dana", "carol"]
    ["alice", "bob"] ["carol", "dana"] h1 h2
  exact ⟨h1, h2, h.1, h.2.2.1, h.2.2.2⟩

/-- C3: the source discards the error of the WriteFile call that stores the
proposal record, so proposeKEP on an existing release returns success even
when the write failed, and the file is then absent. -/
theorem c3_write_error_swallowed (opts : ReleaseOpts) (fs : ProposeFS)
    (hex : fs.releaseExists = true) :
    proposeKEP opts fs false = (fs, .ok ()) := by
  simp [proposeKEP, hex]

/-- Witness for C3 at a concrete input: the write fails, yet the call
reports success and the proposed directory stays empty. -/
theorem c3_write_error_swallowed_witness :
    (⟨true, []⟩ : ProposeFS).releaseExists = true ∧
    proposeKEP ⟨"123-foo", "sig-api/123-foo", "sig-api", "proposed"⟩ ⟨true, []⟩ false
      = (⟨true, []⟩, .ok ()) :=
  ⟨rfl, c3_write_error_swallowed ⟨"123-foo", "sig-api/123-foo", "sig-api", "proposed"⟩
    ⟨true, []⟩ rfl⟩

/-- The state component of saveOwners, with the write outcome pushed into
the single field it affects: the stage subdirectory list never changes. -/
theorem saveOwners_fst (fs : InitFS) (dir : String) (o : ownersFile) (b : Bool) :
    (saveOwners fs dir o b).1
      = { fs with ownersFiles :=
            if b then fs.ownersFiles ++ [(dir, o)] else fs.ownersFiles } := by
  cases b <;> rfl

/-- C5: on a fresh release root InitRelease succeeds, and re-invoking it on
the resulting layout fails on the very first stage directory creation (an
already-existing directory is an error) and returns with the layout exactly
as it was: the operation is not idempotent by design. -/
theorem c5_init_not_idempotent (opts : InitReleaseOpts) (fs : InitFS)
    (saveOk saveOk2 : String → Bool) (h : fs.subdirs = []) :
    (InitRelease opts fs saveOk).2 = .ok () ∧
    InitRelease opts (InitRelease opts fs saveOk).1 saveOk2
      = ((InitRelease opts fs saveOk).1,
          .error "unable to create accepted directory") := by
  obtain ⟨subs, os⟩ := fs
  simp only at h
  subst h
  simp [InitRelease, mkdirStage, saveOwners_fst]

/-- Witness for C5 at concrete inputs. -/
theorem c5_init_not_idempotent_witness :
    (⟨[], []⟩ : InitFS).subdirs = [] ∧
    ((InitRelease ⟨["alice"], ["bob"]⟩ ⟨[], []⟩ (fun _ => true)).2 = .ok () ∧
      InitRelease ⟨["alice"], ["bob"]⟩
          (InitRelease ⟨["alice"], ["bob"]⟩ ⟨[], []⟩ (fun _ => true)).1
          (fun _ => true)
        = ((InitRelease ⟨["alice"], ["bob"]⟩ ⟨[], []⟩ (fun _ => true)).1,
            .error "unable to create accepted directory")) :=
  ⟨rfl, c5_init_not_idempotent ⟨["alice"], ["bob"]⟩ ⟨[], []⟩
    (fun _ => true) (fun _ => true) rfl⟩

/-- C9: InitRelease discards every result of ownersFile.save, so on a fresh
release root it reports success for any pattern of OWNERS write outcomes;
when every OWNERS write fails, all five stage directories are still created
and no ownership record exists in any of them. -/
theorem c9_owners_failure_swallowed (opts : InitReleaseOpts) (fs : InitFS)
    (saveOk : String → Bool) (h : fs.subdirs = []) :
    (InitRelease opts fs saveOk).2 = .ok () ∧
    (InitRelease opts fs (fun _ => false)).2 = .ok () ∧
    (InitRelease opts fs (fun _ => false)).1.ownersFiles = fs.ownersFiles ∧
    (InitRelease opts fs (fun _ => false)).1.subdirs
      = ["accepted", "exception", "proposed", "at-risk", "removed"] := by
  obtain ⟨subs, os⟩ := fs
  simp only at h
  subst h
  simp [InitRelease, mkdirStage, saveOwners_fst]

/-- Witness for C9 at concrete inputs with every OWNERS write failing. -/
theorem c9_owners_failure_swallowed_witness :
    (⟨[], []⟩ : InitFS).subdirs = [] ∧
    ((InitRelease ⟨["alice"], ["bob"]⟩ ⟨[], []⟩ (fun _ => false)).2 = .ok () ∧
      (InitRelease ⟨["alice"], ["bob"]⟩ ⟨[], []⟩ (fun _ => false)).2 = .ok () ∧
      (InitRelease ⟨["alice"], ["bob"]⟩ ⟨[], []⟩ (fun _ => false)).1.ownersFiles
        = ([] : List (String × ownersFile)) ∧
      (InitRelease ⟨["alice"], ["bob"]⟩ ⟨[], []⟩ (fun _ => false)).1.subdirs
        = ["accepted", "exception", "proposed", "at-risk", "removed"]) :=
  ⟨rfl, c9_owners_failure_swallowed ⟨["alice"], ["bob"]⟩ ⟨[], []⟩
    (fun _ => false) rfl⟩

/-- Splitting a malformed-entry search at the head of a listing. -/
theorem hasMalformedYaml_cons (e : String × FileData)
    (rest : List (String × FileData)) :
    hasMalformedYaml (e :: rest)
      ↔ (hasSuffix e.1 ".yaml" = true ∧ e.2 = FileData.malformed)
          ∨ hasMalformedYaml rest := by
  unfold hasMalformedYaml
  constructor
  · rintro ⟨x, hx, hsx, hmx⟩
    rcases List.mem_cons.mp hx with rfl | hx2
    · exact Or.inl ⟨hsx, hmx⟩
    · exact Or.inr ⟨x, hx2, hsx, hmx⟩
  · rintro (⟨hs1, hm1⟩ | ⟨x, hx, hsx, hmx⟩)
    · exact ⟨e, List.mem_cons_self e rest, hs1, hm1⟩
    · exact ⟨x, List.mem_cons_of_mem e hx, hsx, hmx⟩

/-- A listing with a malformed metadata file makes the scan loop fail,
whatever the carried record holds. -/
theorem scanStage_none_of_malformed (l : List (String × FileData)) :
    ∀ c, hasMalformedYaml l → scanStage c l = none := by
  induction l with
  | nil =>
    intro c h
    exact absurd h (by simp [hasMalformedYaml])
  | cons e rest ih =>
    intro c h
    obtain ⟨name, data⟩ := e
    rcases (hasMalformedYaml_cons _ _).mp h with ⟨hs, hmd⟩ | hrest
    · simp only at hs hmd
      subst hmd
      simp [scanStage, hs]
    · by_cases hs : hasSuffix name ".yaml" = true
      · cases data with
        | malformed => simp [scanStage, hs]
        | yamlDoc d =>
          have h2 := ih { unmarshalInto c d with Number := splitFirstDot name } hrest
          simp [scanStage, hs, h2]
      · simp [scanStage, hs, ih c hrest]

/-- A failing scan loop pinpoints a malformed metadata file in the listing. -/
theorem malformed_of_scanStage_none (l : List (String × FileData)) :
    ∀ c, scanStage c l = none → hasMalformedYaml l := by
  induction l with
  | nil =>
    intro c h
    simp [scanStage] at h
  | cons e rest ih =>
    intro c h
    obtain ⟨name, data⟩ := e
    by_cases hs : hasSuffix name ".yaml" = true
    · cases data with
      | malformed => exact (hasMalformedYaml_cons _ _).mpr (Or.inl ⟨hs, rfl⟩)
      | yamlDoc d =>
        rw [hasMalformedYaml_cons]
        refine Or.inr (ih { unmarshalInto c d with Number := splitFirstDot name } ?_)
        cases hrest : scanStage { unmarshalInto c d with Number := splitFirstDot name } rest with
        | none => rfl
        | some p =>
          obtain ⟨cL, out⟩ := p
          rw [show scanStage c ((name, FileData.yamlDoc d) :: rest)
              = some (cL, { unmarshalInto c d with Number := splitFirstDot name } :: out)
            from by simp [scanStage, hs, hrest]] at h
          exact absurd h (by simp)
    · rw [hasMalformedYaml_cons]
      refine Or.inr (ih c ?_)
      rwa [show scanStage c ((name, data) :: rest) = scanStage c rest
        from by simp [scanStage, hs]] at h

/-- Scanning a listing with no metadata files collects nothing and leaves
the carried record untouched. -/
theorem scanStage_noYaml (l : List (String × FileData)) :
    ∀ c, noYamlEntries l → scanStage c l = some (c, []) := by
  induction l with
  | nil => intro c _; rfl
  | cons e rest ih =>
    intro c h
    obtain ⟨name, data⟩ := e
    have hs : hasSuffix name ".yaml" = false := h (name, data) (List.mem_cons_self _ _)
    have hrest : noYamlEntries rest := fun x hx => h x (List.mem_cons_of_mem _ hx)
    simp [scanStage, hs, ih c hrest]

/-- Sorting a listing neither adds nor removes malformed metadata files. -/
theorem hasMalformedYaml_readDir (l : List (String × FileData)) :
    hasMalformedYaml (readDir l) ↔ hasMalformedYaml l := by
  unfold hasMalformedYaml readDir
  constructor <;> rintro ⟨e, he, hp⟩
  · exact ⟨e, (List.perm_insertionSort (fun a b => strLe a.1 b.1) l).mem_iff.mp he, hp⟩
  · exact ⟨e, (List.perm_insertionSort (fun a b => strLe a.1 b.1) l).mem_iff.mpr he, hp⟩

/-- Sorting a listing with no metadata files yields a listing with no
metadata files. -/
theorem noYamlEntries_readDir (l : List (String × FileData)) (h : noYamlEntries l) :
    noYamlEntries (readDir l) := by
  intro e he
  unfold readDir at he
  exact h e ((List.perm_insertionSort (fun a b => strLe a.1 b.1) l).mem_iff.mp he)

/-- C2: when every scanned stage directory is listable and some metadata
file in one of them fails to decode, GenerateRelease returns an error whose
message names a stage that indeed contains a file failing to decode, and the
whole file-system state — in particular any previously-existing manifest
file — is returned unchanged: no manifest is written. -/
theorem c2_decode_failure_aborts (fs : ReleaseFS)
    (la lr lm : List (String × FileData))
    (hex : fs.releaseExists = true)
    (ha : fs.accepted = some la) (hr : fs.atRisk = some lr)
    (hm : fs.removed = some lm)
    (hbad : hasMalformedYaml la ∨ hasMalformedYaml lr ∨ hasMalformedYaml lm) :
    ∃ msg, GenerateRelease fs = (fs, .error msg) ∧
      ((msg = "error loading accepted KEP" ∧ hasMalformedYaml la) ∨
        (msg = "error loading at-risk KEP" ∧ hasMalformedYaml lr) ∨
        (msg = "error loading removed KEP" ∧ hasMalformedYaml lm)) := by
  cases hsa : scanStage zeroContent (readDir la) with
  | none =>
    have hla : hasMalformedYaml la :=
      (hasMalformedYaml_readDir la).mp (malformed_of_scanStage_none _ _ hsa)
    refine ⟨"error loading accepted KEP", ?_, Or.inl ⟨rfl, hla⟩⟩
    simp [GenerateRelease, aggregateManifest, hex, ha, hsa]
  | some p1 =>
    obtain ⟨c1, ks1⟩ := p1
    have hcleanA : ¬ hasMalformedYaml la := by
      intro hmal
      rw [scanStage_none_of_malformed (readDir la) zeroContent
        ((hasMalformedYaml_readDir la).mpr hmal)] at hsa
      exact absurd hsa (by simp)
    cases hsr : scanStage c1 (readDir lr) with
    | none =>
      have hlr : hasMalformedYaml lr :=
        (hasMalformedYaml_readDir lr).mp (malformed_of_scanStage_none _ _ hsr)
      refine ⟨"error loading at-risk KEP", ?_, Or.inr (Or.inl ⟨rfl, hlr⟩)⟩
      simp [GenerateRelease, aggregateManifest, hex, ha, hr, hsa, hsr]
    | some p2 =>
      obtain ⟨c2, ks2⟩ := p2
      have hcleanR : ¬ hasMalformedYaml lr := by
        intro hmal
        rw [scanStage_none_of_malformed (readDir lr) c1
          ((hasMalformedYaml_readDir lr).mpr hmal)] at hsr
        exact absurd hsr (by simp)
      have hlm : hasMalformedYaml lm := by tauto
      have hsm : scanStage c2 (readDir lm) = none :=
        scanStage_none_of_malformed (readDir lm) c2
          ((hasMalformedYaml_readDir lm).mpr hlm)
      refine ⟨"error loading removed KEP", ?_, Or.inr (Or.inr ⟨rfl, hlm⟩)⟩
      simp [GenerateRelease, aggregateManifest, hex, ha, hr, hm, hsa, hsr, hsm]

/-- Witness for C2: a release with a previously-written manifest and one
corrupted accepted record; generation fails naming the accepted stage and
the state, manifest file included, is untouched. -/
theorem c2_decode_failure_aborts_witness :
    (⟨true, some [("bad.yaml", FileData.malformed)], some [], some [], some [],
        some [], some "old manifest"⟩ : ReleaseFS).releaseExists = true ∧
    (hasMalformedYaml [("bad.yaml", FileData.malformed)] ∨
      hasMalformedYaml ([] : List (String × FileData)) ∨
      hasMalformedYaml ([] : List (String × FileData))) ∧
    (∃ msg,
      GenerateRelease ⟨true, some [("bad.yaml", FileData.malformed)], some [],
          some [], some [], some [], some "old manifest"⟩
        = (⟨true, some [("bad.yaml", FileData.malformed)], some [], some [],
            some [], some [], some "old manifest"⟩, .error msg) ∧
      ((msg = "error loading accepted KEP" ∧
          hasMalformedYaml [("bad.yaml", FileData.malformed)]) ∨
        (msg = "error loading at-risk KEP" ∧
          hasMalformedYaml ([] : List (String × FileData))) ∨
        (msg = "error loading removed KEP" ∧
          hasMalformedYaml ([] : List (String × FileData))))) :=
  ⟨rfl, by decide,
    c2_decode_failure_aborts _ [("bad.yaml", FileData.malformed)] [] []
      rfl rfl rfl rfl (by decide)⟩

/-- C4 counterexample: over a release with empty stage directories the run
succeeds and writes the header, but the document binds proposed to null (the
field is never assigned and a nil slice serializes as null), not to an empty
list as the claim states for all four keys. -/
theorem c4_proposed_is_null_counterexample :
    (GenerateRelease emptyRel).2 = .ok () ∧
    aggregateManifest emptyRel
      = .ok { Proposed := none, Accepted := some [], AtRisk := some []
            , Removed := some [] } ∧
    aggregateManifest emptyRel
      ≠ .ok { Proposed := some [], Accepted := some [], AtRisk := some []
            , Removed := some [] } ∧
    (GenerateRelease emptyRel).1.manifestFile
      = some (manifestHeader
          ++ "accepted: []\nat-risk: []\nproposed: null\nremoved: []\n") ∧
    (GenerateRelease emptyRel).1.manifestFile
      ≠ some (manifestHeader
          ++ "accepted: []\nat-risk: []\nproposed: []\nremoved: []\n") := by
  refine ⟨rfl, rfl, ?_, rfl, ?_⟩
  · rw [show aggregateManifest emptyRel
        = .ok { Proposed := none, Accepted := some [], AtRisk := some []
              , Removed := some [] } from rfl]
    simp
  · decide

/-- C4 (amended): over a release whose stage directories exist and hold no
metadata files, GenerateRelease succeeds and writes the two-line provenance
header, a blank line, and a document binding accepted, at-risk and removed to
empty lists and proposed to null, since the proposed stage is never
aggregated. -/
theorem c4_empty_stages_manifest (fs : ReleaseFS)
    (la lr lm : List (String × FileData))
    (hex : fs.releaseExists = true)
    (ha : fs.accepted = some la) (hr : fs.atRisk = some lr)
    (hm : fs.removed = some lm)
    (hya : noYamlEntries la) (hyr : noYamlEntries lr) (hym : noYamlEntries lm) :
    (GenerateRelease fs).2 = .ok () ∧
    (GenerateRelease fs).1.manifestFile
      = some (manifestHeader
          ++ "accepted: []\nat-risk: []\nproposed: null\nremoved: []\n") := by
  have h1 := scanStage_noYaml (readDir la) zeroContent (noYamlEntries_readDir la hya)
  have h2 := scanStage_noYaml (readDir lr) zeroContent (noYamlEntries_readDir lr hyr)
  have h3 := scanStage_noYaml (readDir lm) zeroContent (noYamlEntries_readDir lm hym)
  have hag : aggregateManifest fs
      = .ok { Proposed := none, Accepted := some [], AtRisk := some []
            , Removed := some [] } := by
    simp [aggregateManifest, hex, ha, hr, hm, h1, h2, h3]
  constructor
  · simp [GenerateRelease, hag]
  · simp only [GenerateRelease, hag]
    rfl

/-- Witness for C4 (amended): stage directories holding only OWNERS files
and a stale manifest; the run succeeds and rewrites the manifest with four
stage keys, proposed bound to null. -/
theorem c4_empty_stages_manifest_witness :
    (⟨true, some [("OWNERS", FileData.malformed)],
        some [("OWNERS", FileData.malformed)], some [], some [], some [],
        some "stale"⟩ : ReleaseFS).releaseExists = true ∧
    noYamlEntries [("OWNERS", FileData.malformed)] ∧
    noYamlEntries ([] : List (String × FileData)) ∧
    ((GenerateRelease ⟨true, some [("OWNERS", FileData.malformed)],
        some [("OWNERS", FileData.malformed)], some [], some [], some [],
        some "stale"⟩).2 = .ok () ∧
      (GenerateRelease ⟨true, some [("OWNERS", FileData.malformed)],
          some [("OWNERS", FileData.malformed)], some [], some [], some [],
          some "stale"⟩).1.manifestFile
        = some (manifestHeader
            ++ "accepted: []\nat-risk: []\nproposed: null\nremoved: []\n")) :=
  ⟨rfl, by decide, by decide,
    c4_empty_stages_manifest _ [("OWNERS", FileData.malformed)]
      [("OWNERS", FileData.malformed)] [] rfl rfl rfl rfl
      (by decide) (by decide) (by decide)⟩

/-- C8: a successful GenerateRelease run only replaces the manifest file,
which no scan reads, so an immediate second run with no intervening changes
succeeds and leaves the very same state — in particular byte-identical
manifest output. -/
theorem c8_generate_idempotent (fs : ReleaseFS)
    (h : (GenerateRelease fs).2 = .ok ()) :
    GenerateRelease (GenerateRelease fs).1 = ((GenerateRelease fs).1, .ok ()) := by
  cases hag : aggregateManifest fs with
  | error e =>
    rw [show GenerateRelease fs = (fs, .error e) from by
      simp [GenerateRelease, hag]] at h
    exact absurd h (by simp)
  | ok m =>
    have hsame : aggregateManifest
        { fs with manifestFile := some (manifestHeader ++ marshalManifest m) }
        = aggregateManifest fs := rfl
    simp [GenerateRelease, hag, hsame]

/-- Witness for C8 at a release with one accepted record. -/
theorem c8_generate_idempotent_witness :
    (GenerateRelease oneAcceptedRel).2 = .ok () ∧
    GenerateRelease (GenerateRelease oneAcceptedRel).1
      = ((GenerateRelease oneAcceptedRel).1, .ok ()) :=
  ⟨rfl, c8_generate_idempotent oneAcceptedRel rfl⟩

/-- C10: all three scan loops decode into the one content variable declared
once in GenerateRelease, so with one accepted file supplying its fields and
one at-risk file supplying none, the emitted at-risk entry is the previous
record re-numbered: every field its own file omits — SIG in particular —
carries over from the previously decoded file, and the entry is not a
function of its own file alone. -/
theorem c10_shared_content_carryover (fs : ReleaseFS) (n1 n2 : String)
    (d1 d2 : YamlDoc)
    (hex : fs.releaseExists = true)
    (ha : fs.accepted = some [(n1, FileData.yamlDoc d1)])
    (hr : fs.atRisk = some [(n2, FileData.yamlDoc d2)])
    (hmr : fs.removed = some [])
    (h1 : hasSuffix n1 ".yaml" = true) (h2 : hasSuffix n2 ".yaml" = true) :
    aggregateManifest fs
      = .ok { Proposed := none
            , Accepted := some
                [{ unmarshalInto zeroContent d1 with Number := splitFirstDot n1 }]
            , AtRisk := some
                [{ unmarshalInto
                    { unmarshalInto zeroContent d1 with Number := splitFirstDot n1 }
                    d2 with Number := splitFirstDot n2 }]
            , Removed := some [] } ∧
    (d2.sig = none →
      ({ unmarshalInto
          { unmarshalInto zeroContent d1 with Number := splitFirstDot n1 }
          d2 with Number := splitFirstDot n2 } : releaseContent).SIG
        = d1.sig.getD "") := by
  constructor
  · simp [aggregateManifest, hex, ha, hr, hmr, readDir, List.insertionSort,
      scanStage, h1, h2]
  · intro hnone
    simp [unmarshalInto, hnone, zeroContent]

/-- Witness for C10: the at-risk file 200.yaml gives no fields at all, and
its manifest entry inherits sig-a, linkA and the rest from the accepted file
100.yaml decoded just before it. -/
theorem c10_shared_content_carryover_witness :
    carryoverRel.releaseExists = true ∧
    (⟨none, none, none, none, none⟩ : YamlDoc).sig = none ∧
    (aggregateManifest carryoverRel
      = .ok { Proposed := none
            , Accepted := some
                [{ unmarshalInto zeroContent
                    ⟨none, some "linkA", some "sig-a", some "alpha", some "issueA"⟩
                    with Number := splitFirstDot "100.yaml" }]
            , AtRisk := some
                [{ unmarshalInto
                    { unmarshalInto zeroContent
                        ⟨none, some "linkA", some "sig-a", some "alpha", some "issueA"⟩
                      with Number := splitFirstDot "100.yaml" }
                    ⟨none, none, none, none, none⟩
                    with Number := splitFirstDot "200.yaml" }]
            , Removed := some [] } ∧
      ((⟨none, none, none, none, none⟩ : YamlDoc).sig = none →
        ({ unmarshalInto
            { unmarshalInto zeroContent
                ⟨none, some "linkA", some "sig-a", some "alpha", some "issueA"⟩
              with Number := splitFirstDot "100.yaml" }
            ⟨none, none, none, none, none⟩
            with Number := splitFirstDot "200.yaml" } : releaseContent).SIG
          = (⟨none, some "linkA", some "sig-a", some "alpha", some "issueA"⟩
              : YamlDoc).sig.getD "")) :=
  ⟨rfl, rfl,
    c10_shared_content_carryover carryoverRel "100.yaml" "200.yaml"
      ⟨none, some "linkA", some "sig-a", some "alpha", some "issueA"⟩
      ⟨none, none, none, none, none⟩ rfl rfl rfl rfl (by decide) (by decide)⟩

/-- C1: the claim fails on the code — GenerateRelease scans only accepted,
at-risk and removed and never reads the proposed directory, so after
proposeKEP places 123-foo.yaml there (first conjunct), the generated
manifest binds proposed to null with no entry for the proposal, against the
declared Proposed field of the manifest struct and the dangling
get-exceptions comment marking the unwritten scan. -/
theorem c1_proposed_never_aggregated :
    (proposeKEP opts123 ⟨true, []⟩ true).1.proposedFiles
      = [("123-foo.yaml", FileData.yamlDoc (marshalContent
          { Number := "", SIG := "sig-api", Stage := "proposed"
          , Issue := generateIssueLink "123-foo"
          , Link := generateKEPLink "sig-api/123-foo" }))] ∧
    (GenerateRelease rel123).2 = .ok () ∧
    aggregateManifest rel123
      = .ok { Proposed := none, Accepted := some [], AtRisk := some []
            , Removed := some [] } ∧
    (GenerateRelease rel123).1.manifestFile
      = some (manifestHeader
          ++ "accepted: []\nat-risk: []\nproposed: null\nremoved: []\n") := by
  refine ⟨?_, rfl, rfl, ?_⟩ <;> decide

end Kepctl
